import Mathlib

/-!
# Verification of the `neon` room-simulation core

Shallow embedding of the authoritative game-server core of the `neon`
multiplayer light-cycle arena (`src/server.js`; `src/src/worker.js` is the
same core under different tuning constants — the server variant's constants
are used here).

Modelling conventions:
* JavaScript numbers (IEEE doubles) are modelled as exact rationals `ℚ`;
  every operation the verified claims exercise (comparison, `+`, `-`, `*`,
  `min`, `Math.floor`, `Math.abs`) is exact on the values involved.
* `Math.cos` / `Math.sin` are opaque parameters `cosF`, `sinF : ℚ → ℚ`:
  no claim below depends on their values, so theorems quantify over them.
* The per-player flat `Float32Array` trail stores are modelled as total
  functions `Nat → ℚ` (the code only ever indexes them at
  `(start + i) % TRAIL_MAX < TRAIL_MAX`, so the array bound is never hit).
* Mutation of the single room table / of player objects becomes explicit
  state passing; `Object.keys` insertion order becomes the order of a
  `List Player`.
-/

namespace Neon

/-- `CANVAS_W` — arena width in logical units. -/
def CANVAS_W : ℚ := 1400

/-- `CANVAS_H` — arena height in logical units. -/
def CANVAS_H : ℚ := 900

/-- `BASE_SPEED` (server variant: `2.5`). -/
def BASE_SPEED : ℚ := 5 / 2

/-- `SPEED_INCREMENT` (server variant: `0.5`). -/
def SPEED_INCREMENT : ℚ := 1 / 2

/-- `SPEED_INTERVAL` — seconds between speed boosts (server variant: `10`). -/
def SPEED_INTERVAL : ℚ := 10

/-- `MAX_SPEED` (server variant: `8`). -/
def MAX_SPEED : ℚ := 8

/-- `TURN_SPEED` — radians per tick of turning (server variant: `0.045`). -/
def TURN_SPEED : ℚ := 9 / 200

/-- `TRAIL_MAX` — trail circular-buffer capacity. -/
def TRAIL_MAX : Nat := 600

/-- `COLLISION_RADIUS`. -/
def COLLISION_RADIUS : ℚ := 4

/-- `COLLISION_RADIUS_SQ = COLLISION_RADIUS * COLLISION_RADIUS`. -/
def COLLISION_RADIUS_SQ : ℚ := 16

/-- `COLLISION_SKIP_OWN` — newest own-trail points excluded from self-collision. -/
def COLLISION_SKIP_OWN : Nat := 20

/-- `LIVES` — lives per match. -/
def LIVES : Nat := 6

/-- The fixed 8-entry colour palette `COLORS`. -/
def COLORS : List String :=
  ["#ff8c00", "#00bfff", "#ff2e63", "#39ff14", "#e040fb", "#ffeb3b", "#00e5ff", "#ff6e40"]

/-- The exact rational value of the IEEE-double `Math.PI`. -/
def MATH_PI : ℚ := 884279719003555 / 281474976710656

/-- One entry of the `spawnConfigs` table. -/
structure Spawn where
  x : ℚ
  y : ℚ
  angle : ℚ
  deriving DecidableEq

/-- `spawnConfigs` — spawn positions/headings for up to 8 players.  The
float roundings of `Math.PI * c` are abstracted to exact rationals; the
angles are only ever consumed by the opaque `cosF`/`sinF` parameters. -/
def spawnConfigs : List Spawn :=
  [⟨250, 200, MATH_PI * (1 / 4)⟩, ⟨1150, 200, MATH_PI * (3 / 4)⟩,
   ⟨1150, 700, MATH_PI * (5 / 4)⟩, ⟨250, 700, MATH_PI * (7 / 4)⟩,
   ⟨700, 100, MATH_PI * (1 / 2)⟩, ⟨700, 800, MATH_PI * (3 / 2)⟩,
   ⟨100, 450, 0⟩, ⟨1300, 450, MATH_PI⟩]

/-- A player object as built by `createPlayer` and mutated by the loop.
`trailX`/`trailY` model the two flat `Float32Array`s; `trailSentCount` is an
`Int` so that the "never goes below zero" clause is a theorem, not a typing
artefact. -/
structure Player where
  id : String
  name : String
  x : ℚ
  y : ℚ
  angle : ℚ
  turning : Int
  trailX : Nat → ℚ
  trailY : Nat → ℚ
  trailLen : Nat
  trailStart : Nat
  trailSentCount : Int
  alive : Bool
  score : Nat
  lives : Nat
  color : String
  spawnIndex : Nat

instance : Inhabited Player :=
  ⟨{ id := "", name := "", x := 0, y := 0, angle := 0, turning := 0,
     trailX := fun _ => 0, trailY := fun _ => 0, trailLen := 0, trailStart := 0,
     trailSentCount := 0, alive := true, score := 0, lives := 0, color := "",
     spawnIndex := 0 }⟩

/-- `createPlayer(id, index, name)`.  `name` is `Option String` (`none` for a
missing / non-string field); the JS alternative
`typeof name === "string" && name.trim().length > 0 ? name.trim() : "Player"`
becomes the match below. -/
def createPlayer (id : String) (index : Nat) (name : Option String) : Player :=
  { id := id
    name := match name with
      | some s => if s.trim.length > 0 then s.trim else "Player"
      | none => "Player"
    x := CANVAS_W / 2
    y := CANVAS_H / 2
    angle := 0
    turning := 0
    trailX := fun _ => 0
    trailY := fun _ => 0
    trailLen := 0
    trailStart := 0
    trailSentCount := 0
    alive := true
    score := 0
    lives := LIVES
    color := COLORS.getD (index % COLORS.length) ""
    spawnIndex := index }

/-- `trailPush(p, x, y)` — circular-buffer push (server.js lines 88–102). -/
def trailPush (p : Player) (x y : ℚ) : Player :=
  if p.trailLen < TRAIL_MAX then
    let idx := (p.trailStart + p.trailLen) % TRAIL_MAX
    { p with trailX := fun j => if j = idx then x else p.trailX j
             trailY := fun j => if j = idx then y else p.trailY j
             trailLen := p.trailLen + 1 }
  else
    -- overwrite oldest point (circular)
    { p with trailX := fun j => if j = p.trailStart then x else p.trailX j
             trailY := fun j => if j = p.trailStart then y else p.trailY j
             trailStart := (p.trailStart + 1) % TRAIL_MAX
             trailSentCount :=
               if p.trailSentCount > 0 then p.trailSentCount - 1 else p.trailSentCount }

/-- `trailGetIndex(p, i)` — physical slot of the `i`-th logical point
(0 = oldest).  Note: the source performs no bounds check against
`trailLen`; the function is total. -/
def trailGetIndex (p : Player) (i : Nat) : Nat :=
  (p.trailStart + i) % TRAIL_MAX

/-- Reading the point addressed by `trailGetIndex` — the only way the code
ever consumes a logical trail index. -/
def pointAt (p : Player) (i : Nat) : ℚ × ℚ :=
  (p.trailX (trailGetIndex p i), p.trailY (trailGetIndex p i))

/-- A sequence of `trailPush` calls, oldest first. -/
def pushSeq (p : Player) (pts : List (ℚ × ℚ)) : Player :=
  pts.foldl (fun q pt => trailPush q pt.1 pt.2) p

/-- The trail-reset performed by `startRound` (and `restart`):
`trailLen = 0`, `trailStart = 0`, `trailSentCount = 0`. -/
def resetTrail (p : Player) : Player :=
  { p with trailLen := 0, trailStart := 0, trailSentCount := 0 }

/-! ## Collision detection (`checkCollisions`, server.js lines 124–195) -/

/-- The currently stored trail points of a player, oldest first — the point
visited at loop index `i` by every `for (let i = 0; i < …; i++)` scan in the
source (`idx = (trailStart + i) % TRAIL_MAX`). -/
def trailPoints (p : Player) : List (ℚ × ℚ) :=
  (List.range p.trailLen).map fun i =>
    (p.trailX ((p.trailStart + i) % TRAIL_MAX), p.trailY ((p.trailStart + i) % TRAIL_MAX))

/-- An axis-aligned bounding box. -/
structure BBox where
  minX : ℚ
  maxX : ℚ
  minY : ℚ
  maxY : ℚ
  deriving DecidableEq

/-- One accumulation step of the bounding-box pre-pass
(`if (tx < minX) minX = tx; …`).  The accumulator starts at
`minX = Infinity, maxX = -Infinity, …`, modelled as `none`. -/
def bboxStep (acc : Option BBox) (pt : ℚ × ℚ) : Option BBox :=
  match acc with
  | none => some ⟨pt.1, pt.1, pt.2, pt.2⟩
  | some b => some ⟨min b.minX pt.1, max b.maxX pt.1, min b.minY pt.2, max b.maxY pt.2⟩

/-- Raw (unpadded) bounding box over a point list; `none` iff the list is
empty (in JS the box is then `(∞, -∞, ∞, -∞)`, which every point-in-box test
rejects — exactly the `none` behaviour below). -/
def bboxRaw (pts : List (ℚ × ℚ)) : Option BBox :=
  pts.foldl bboxStep none

/-- The entry stored in `trailBounds[other.id]`: the raw box padded by
`COLLISION_RADIUS` on every side. -/
def bboxOf (p : Player) : Option BBox :=
  (bboxRaw (trailPoints p)).map fun b =>
    ⟨b.minX - COLLISION_RADIUS, b.maxX + COLLISION_RADIUS,
     b.minY - COLLISION_RADIUS, b.maxY + COLLISION_RADIUS⟩

/-- The pre-pass `trailBounds` table: one entry per *alive* player
(`if (!other.alive) continue;`), keyed by id, in player order. -/
def boundsOf (players : List Player) : List (String × Option BBox) :=
  players.filterMap fun q => if q.alive then some (q.id, bboxOf q) else none

/-- `trailBounds[pid]` lookup (first entry with the key, as in a JS object
whose keys are unique).  An alive player always has an entry; a missing key
(unreachable in the loop below) collapses to the always-reject `none` box. -/
def lookupBounds : List (String × Option BBox) → String → Option BBox
  | [], _ => none
  | e :: rest, pid => if e.1 = pid then e.2 else lookupBounds rest pid

/-- The per-trail-point test: component-wise quick reject
(`|dx| > COLLISION_RADIUS || |dy| > COLLISION_RADIUS`) then the exact
squared-distance test against `COLLISION_RADIUS_SQ`. -/
def pointNear (px py tx ty : ℚ) : Bool :=
  let dx := px - tx
  let dy := py - ty
  if |dx| > COLLISION_RADIUS ∨ |dy| > COLLISION_RADIUS then false
  else decide (dx * dx + dy * dy < COLLISION_RADIUS_SQ)

/-- Scan cut-off: `end = isSelf ? len - COLLISION_SKIP_OWN : len - 2`.
In JS a negative `end` makes the `for` loop run zero times; truncated `Nat`
subtraction gives the same empty range. -/
def scanEnd (isSelf : Bool) (len : Nat) : Nat :=
  if isSelf then len - COLLISION_SKIP_OWN else len - 2

/-- The fine-grained scan of one trail (`for (let i = 0; i < end; i++) …`);
`true` iff some scanned point is within collision range of the head
`(px, py)`. -/
def trailScanHit (px py : ℚ) (other : Player) (isSelf : Bool) : Bool :=
  ((trailPoints other).take (scanEnd isSelf other.trailLen)).any fun pt =>
    pointNear px py pt.1 pt.2

/-- One alive player's full hazard evaluation against the current player
list (the inner `for (let k …)` loop): skip dead players, bounding-box
reject, then fine scan.  `st` is the player list *at evaluation time* —
`other.alive` is re-read from it, which is what makes eliminations applied
earlier in the same pass visible here. -/
def hitAny (bounds : List (String × Option BBox)) (st : List Player)
    (px py : ℚ) (pid : String) : Bool :=
  st.any fun other =>
    if !other.alive then false
    else
      match lookupBounds bounds other.id with
      | none => false
      | some b =>
        if px < b.minX ∨ px > b.maxX ∨ py < b.minY ∨ py > b.maxY then false
        else trailScanHit px py other (other.id = pid)

/-- `if (hit) p.alive = false;` — kill the player with the given id. -/
def markDead (st : List Player) (pid : String) : List Player :=
  st.map fun q => if q.id = pid then { q with alive := false } else q

/-- `checkCollisions(players)`.  `aliveList` is fixed up front from the
players alive on entry; each of them is then evaluated (head position and
id taken from its entry-time record — its position is not mutated by this
pass) against the *current* list, and its elimination is applied before the
next player is evaluated. -/
def checkCollisions (players : List Player) : List Player :=
  let aliveList := players.filter (·.alive)
  let bounds := boundsOf players
  aliveList.foldl
    (fun st p => if hitAny bounds st p.x p.y p.id then markDead st p.id else st)
    players

/-- Modelled from the spec: the claimed *naive* collision detector with the
axis-aligned bounding-box pre-check removed — it "scans every trail point
of every alive player without the pre-check" and is otherwise identical. -/
def hitAnyNoBBox (st : List Player) (px py : ℚ) (pid : String) : Bool :=
  st.any fun other =>
    if !other.alive then false
    else trailScanHit px py other (other.id = pid)

/-- Modelled from the spec: `checkCollisions` with the bounding-box
rejection removed (comparison definition for the pure-optimization claim). -/
def checkCollisionsNoBBox (players : List Player) : List Player :=
  let aliveList := players.filter (·.alive)
  aliveList.foldl
    (fun st p => if hitAnyNoBBox st p.x p.y p.id then markDead st p.id else st)
    players

/-- The relation "this pass left the record unchanged or merely cleared its
alive flag" — the only two things `checkCollisions` can do to a player. -/
def PlayerRel (p q : Player) : Prop :=
  q = p ∨ q = { p with alive := false }

/-! ## Physics (`movePlayer`) and the room model -/

/-- `movePlayer(p, speed)` — turn, integrate position, push the new head
onto the trail, die on leaving the arena.  `cosF`/`sinF` stand for
`Math.cos`/`Math.sin`. -/
def movePlayer (cosF sinF : ℚ → ℚ) (p : Player) (speed : ℚ) : Player :=
  let angle := p.angle + p.turning * TURN_SPEED
  let x := p.x + cosF angle * speed
  let y := p.y + sinF angle * speed
  let q := trailPush { p with angle := angle, x := x, y := y } x y
  if x < 0 ∨ x > CANVAS_W ∨ y < 0 ∨ y > CANVAS_H then { q with alive := false } else q

/-- A room as created by the "create" handler.  `players` is the id-keyed
object in insertion order; `readyPlayers` models the JS `Set`. -/
structure Room where
  players : List Player
  roundActive : Bool
  centerPhase : Bool
  gameStarted : Bool
  matchWinner : Option String
  hostId : String
  countdown : Int
  roundStartTime : Option ℚ
  currentSpeed : ℚ
  needsFullSync : Bool
  readyPlayers : Finset String

/-- `getRoomSpeed(room)`; `now` stands for `Date.now()` (milliseconds).
The JS guard `!room.roundStartTime` is also true for the (epoch-only,
practically unreachable) timestamp `0`, hence the extra `t = 0` branch. -/
def getRoomSpeed (now : ℚ) (room : Room) : ℚ :=
  match room.roundStartTime with
  | none => BASE_SPEED
  | some t =>
    if t = 0 then BASE_SPEED
    else
      let elapsed := (now - t) / 1000
      let boosts : ℤ := ⌊elapsed / SPEED_INTERVAL⌋
      min (BASE_SPEED + (boosts : ℚ) * SPEED_INCREMENT) MAX_SPEED

/-- `startRound(room)`: every player who still has lives gets the next
spawn slot (eliminated players are skipped and do not consume one), a trail
reset and `alive = true`; then the round is armed. -/
def startRound (now : ℚ) (room : Room) : Room :=
  let z := room.players.foldl
    (fun (acc : Nat × List Player) p =>
      if p.lives = 0 then (acc.1, acc.2 ++ [p])
      else
        let spawn := spawnConfigs.getD (acc.1 % spawnConfigs.length) ⟨0, 0, 0⟩
        let p' := { p with x := spawn.x, y := spawn.y, angle := spawn.angle
                           turning := 0, trailLen := 0, trailStart := 0
                           trailSentCount := 0, alive := true }
        (acc.1 + 1, acc.2 ++ [p']))
    (0, [])
  { room with players := z.2, roundActive := true, countdown := 0
              roundStartTime := some now, needsFullSync := true }

/-- The physics block of `gameLoop`: every alive player is advanced with
the *same* per-room speed; dead players are untouched. -/
def physicsPhase (cosF sinF : ℚ → ℚ) (spd : ℚ) (ps : List Player) : List Player :=
  ps.map fun p => if p.alive then movePlayer cosF sinF p spd else p

/-- Count of currently alive players. -/
def aliveCount (ps : List Player) : Nat :=
  (ps.filter (·.alive)).length

/-- The round-winner block of `gameLoop`: if the round is active, the room
*currently* holds `≥ 2` players, and `≤ 1` of them is alive, the round is
ended — lives of dead players are decremented (floored at 0, which is the
`Nat` subtraction), and if at most one player still has lives the match
ends (winner name or `"DRAW"`, ready-set cleared).  Otherwise a delayed
countdown/`startRound` is scheduled; its effects are deferred callbacks and
are not part of this tick's state change. -/
def roundPhase (room : Room) : Room :=
  if room.roundActive = true ∧ 2 ≤ room.players.length ∧ aliveCount room.players ≤ 1 then
    let ps := room.players.map fun p =>
      if p.alive then p else { p with lives := p.lives - 1 }
    let stillIn := ps.filter fun p => 0 < p.lives
    if stillIn.length ≤ 1 then
      { room with roundActive := false, players := ps
                  matchWinner := some (match stillIn with | [p] => p.name | _ => "DRAW")
                  readyPlayers := ∅ }
    else
      { room with roundActive := false, players := ps }
  else room

/-- The state effect of the throttled broadcast block: the delta watermark
`trailSentCount` of every player is advanced to its `trailLen`, and the
full-sync dirty flag is consumed.  (The serialized `state` message itself
is I/O and carries no further state.) -/
def broadcastPhase (room : Room) : Room :=
  { room with needsFullSync := false
              players := room.players.map fun p =>
                { p with trailSentCount := (p.trailLen : Int) } }

/-- One `gameLoop` iteration for one room: physics + collision while the
round is active, then the round-winner check, then (on broadcast ticks)
the broadcast state effects. -/
def tickRoom (cosF sinF : ℚ → ℚ) (now : ℚ) (shouldBroadcast : Bool) (room : Room) : Room :=
  let r1 :=
    if room.roundActive then
      let spd := getRoomSpeed now room
      { room with currentSpeed := spd
                  players := checkCollisions (physicsPhase cosF sinF spd room.players) }
    else room
  let r2 := roundPhase r1
  if shouldBroadcast then broadcastPhase r2 else r2

/-- The room-surviving branch of the close handler:
`delete room.players[id]`. -/
def removePlayer (room : Room) (id : String) : Room :=
  { room with players := room.players.filter fun p => p.id ≠ id }

/-! ## Message handlers (the `ws.on("message")` dispatch) -/

/-- Outbound protocol messages (only the fields the verified claims
inspect; the `state` snapshot is produced by the broadcast block above). -/
inductive OutMsg where
  | roomCreated (code : String)
  | joined (code : String)
  | error (message : String)
  | playerList (players : List (String × String × String))
  | gameStart (hostId : Option String)
  | matchRestart
  | readyCount (ready total : Nat)
  deriving DecidableEq

/-- The process-wide room table, keyed by 4-digit code. -/
def Rooms := List (String × Room)

/-- `rooms[code]` (first entry with the key; codes are unique by
construction). -/
def lookupRoom : Rooms → String → Option Room
  | [], _ => none
  | cr :: rest, code => if cr.1 = code then some cr.2 else lookupRoom rest code

/-- In-place update of one room. -/
def updateRoom (rooms : Rooms) (code : String) (room : Room) : Rooms :=
  rooms.map fun cr => if cr.1 = code then (code, room) else cr

/-- The result of one handler run: the new room table, the messages sent
to the issuing session, and the messages broadcast to the room. -/
structure HandlerResult where
  rooms : Rooms
  toSender : List OutMsg
  broadcast : List OutMsg

/-- `broadcastPlayerList(code)` payload. -/
def playerListMsg (room : Room) : OutMsg :=
  .playerList (room.players.map fun p => (p.id, p.name, p.color))

/-- The "join" handler (server.js lines 269–295). -/
def handleJoin (rooms : Rooms) (id : String) (code : String) (name : Option String) :
    HandlerResult :=
  match lookupRoom rooms code with
  | none => ⟨rooms, [.error "Room not found"], []⟩
  | some room =>
    let playerCount := room.players.length
    if 8 ≤ playerCount then ⟨rooms, [.error "Room is full (max 8)"], []⟩
    else
      let np0 := createPlayer id playerCount name
      let np := if room.gameStarted then { np0 with alive := false } else np0
      let room' := { room with players := room.players ++ [np]
                               needsFullSync :=
                                 if room.gameStarted then true else room.needsFullSync }
      ⟨updateRoom rooms code room',
       .joined code :: (if room.gameStarted then [.gameStart none] else []),
       [playerListMsg room']⟩

/-- The "start" handler (server.js lines 297–314).  `sessRoom` is the
session's `ws.room`.  The immediate state effects of `startCountdown` are
`centerPhase = true, countdown = 3`; the countdown decrements and the
eventual `startRound` run in deferred timer callbacks. -/
def handleStart (rooms : Rooms) (sessRoom : Option String) (id : String) : HandlerResult :=
  match sessRoom with
  | none => ⟨rooms, [], []⟩
  | some code =>
    match lookupRoom rooms code with
    | none => ⟨rooms, [], []⟩
    | some room =>
      if room.players.length < 2 then ⟨rooms, [.error "Need at least 2 players!"], []⟩
      else if id ≠ room.hostId then ⟨rooms, [.error "Only the host can start"], []⟩
      else
        let room' := { room with gameStarted := true, centerPhase := true, countdown := 3 }
        ⟨updateRoom rooms code room', [], [.gameStart (some room.hostId)]⟩

/-- The "restart" handler (server.js lines 316–334).  A non-host restart is
dropped with `return` — no error message is produced. -/
def handleRestart (rooms : Rooms) (sessRoom : Option String) (id : String) : HandlerResult :=
  match sessRoom with
  | none => ⟨rooms, [], []⟩
  | some code =>
    match lookupRoom rooms code with
    | none => ⟨rooms, [], []⟩
    | some room =>
      if id ≠ room.hostId then ⟨rooms, [], []⟩
      else
        let room' := { room with readyPlayers := ∅, matchWinner := none
                                 centerPhase := true, countdown := 3
                                 players := room.players.map fun p =>
                                   { p with lives := LIVES, trailLen := 0, trailStart := 0
                                            trailSentCount := 0, alive := true, turning := 0 } }
        ⟨updateRoom rooms code room', [], [.matchRestart]⟩

/-- The "readyUp" handler (server.js lines 336–342).  Note: the sender is
*not* checked against `hostId` — any session in the room is added to the
ready set. -/
def handleReadyUp (rooms : Rooms) (sessRoom : Option String) (id : String) : HandlerResult :=
  match sessRoom with
  | none => ⟨rooms, [], []⟩
  | some code =>
    match lookupRoom rooms code with
    | none => ⟨rooms, [], []⟩
    | some room =>
      match room.matchWinner with
      | none => ⟨rooms, [], []⟩
      | some _ =>
        let rp := insert id room.readyPlayers
        let totalNonHost := (room.players.filter fun p => p.id ≠ room.hostId).length
        ⟨updateRoom rooms code { room with readyPlayers := rp }, [],
         [.readyCount rp.card totalNonHost]⟩

/-! ## Concrete instances used by counterexamples and witnesses -/

/-- A freshly created player relocated to `(x, y)`. -/
def basePlayer (id : String) (x y : ℚ) : Player :=
  { createPlayer id 0 none with x := x, y := y }

/-- Player `"a"`: head at `(100, 100)`, 3-point trail along `y = 200`
(oldest point `(200, 200)`). -/
def pA : Player :=
  { basePlayer "a" 100 100 with
    trailX := fun i => if i = 0 then 200 else if i = 1 then 210 else if i = 2 then 220 else 0
    trailY := fun _ => 200
    trailLen := 3 }

/-- Player `"b"`: head at `(200, 200)`, 3-point trail along `y = 100`
(oldest point `(100, 100)`).  `pA`'s head lies on `pB`'s oldest trail point
and vice versa. -/
def pB : Player :=
  { basePlayer "b" 200 200 with
    trailX := fun i => if i = 0 then 100 else if i = 1 then 110 else if i = 2 then 120 else 0
    trailY := fun _ => 100
    trailLen := 3 }

/-- A player standing exactly on its own short (5-point) trail. -/
def pSelf : Player :=
  { basePlayer "s" 100 100 with
    trailX := fun _ => 100
    trailY := fun _ => 100
    trailLen := 5 }

/-- A freshly created player: empty trail. -/
def pEmpty : Player := createPlayer "e" 0 none

/-- Host player `"h"`. -/
def pH : Player := createPlayer "h" 0 none

/-- Joining player `"j"`. -/
def pJ : Player := createPlayer "j" 1 (some "B")

/-- An empty lobby-state room owned by host `"h"`, as the "create" handler
builds it. -/
def roomBase : Room :=
  { players := [], roundActive := false, centerPhase := false, gameStarted := false
    matchWinner := none, hostId := "h", countdown := 0, roundStartTime := none
    currentSpeed := BASE_SPEED, needsFullSync := false, readyPlayers := ∅ }

/-- A two-player lobby room (`"h"` host, `"j"` guest). -/
def roomTwo : Room := { roomBase with players := [pH, pJ] }

/-- A one-room table holding `roomTwo` under code `"1234"`. -/
def roomsOne : Rooms := [("1234", roomTwo)]

/-- A single-player room (host only). -/
def roomSolo : Room := { roomBase with players := [pH] }

/-- Table holding `roomSolo` under code `"1111"`. -/
def roomsSolo : Rooms := [("1111", roomSolo)]

/-- An 8-player room (at capacity). -/
def roomFull : Room :=
  { roomBase with players := (List.range 8).map fun i => createPlayer (toString i) i none }

/-- Table holding `roomFull` under code `"8888"`. -/
def roomsFull : Rooms := [("8888", roomFull)]

/-- A room whose match has started (for the mid-match-join claim). -/
def roomStarted : Room := { roomTwo with gameStarted := true }

/-- Table holding `roomStarted` under code `"7777"`. -/
def roomsStarted : Rooms := [("7777", roomStarted)]

/-- A match-end room (`matchWinner` set, ready set empty). -/
def roomME : Room := { roomTwo with gameStarted := true, matchWinner := some "Player" }

/-- Table holding `roomME` under code `"4321"`. -/
def roomsME : Rooms := [("4321", roomME)]

/-- The table after the *host* `"h"` issues "readyUp" on `roomME`. -/
def roomsME1 : Rooms := (handleReadyUp roomsME (some "4321") "h").rooms

/-- `roomTwo` with its match started and its round begun at time `1000`. -/
def roomC3started : Room := startRound 1000 { roomTwo with gameStarted := true }

/-- …after player `"j"` disconnects mid-round. -/
def roomC3dropped : Room := removePlayer roomC3started "j"

/-- …after the next `gameLoop` tick (trig instantiated to the constant-zero
functions: the surviving player stays at its spawn). -/
def roomC3ticked : Room :=
  tickRoom (fun _ => 0) (fun _ => 0) 121000 false roomC3dropped

/-- A mid-round two-player room used by witnesses (round begun at `1000`). -/
def roomActive : Room := startRound 1000 { roomTwo with gameStarted := true }

/-- A room with a recorded round start, for the speed-formula witness. -/
def roomRS : Room := { roomTwo with roundActive := true, roundStartTime := some 1000 }

/-- A player whose trail buffer is full (`trailLen = TRAIL_MAX`) with three
unflushed-counted points. -/
def pFull : Player :=
  { createPlayer "f" 0 none with trailLen := TRAIL_MAX, trailSentCount := 3 }

/-- Membership of a point in a raw bounding box (proof scaffolding). -/
def inBB (b : BBox) (pt : ℚ × ℚ) : Prop :=
  b.minX ≤ pt.1 ∧ pt.1 ≤ b.maxX ∧ b.minY ≤ pt.2 ∧ pt.2 ≤ b.maxY

/-- `b` extends `b₀` (proof scaffolding). -/
def extendsBB (b b₀ : BBox) : Prop :=
  b.minX ≤ b₀.minX ∧ b₀.maxX ≤ b.maxX ∧ b.minY ≤ b₀.minY ∧ b₀.maxY ≤ b.maxY

/-- Characterization of a trail buffer reached from the reset state by the
push sequence `pts` (proof scaffolding): the stored length is
`min pts.length TRAIL_MAX`, the start slot has advanced once per evicted
point, no push ever raises `sentCount` (from reset it stays `0`), and the
logical points are exactly the last `trailLen` pushed points in insertion
order. -/
def goodTrail (pts : List (ℚ × ℚ)) (q : Player) : Prop :=
  q.trailLen = min pts.length TRAIL_MAX ∧
  q.trailStart = (pts.length - q.trailLen) % TRAIL_MAX ∧
  q.trailSentCount = 0 ∧
  ∀ i, i < q.trailLen → pointAt q i = pts.getD (pts.length - q.trailLen + i) (0, 0)

/-! ## Helper lemmas -/

theorem playerRel_refl (p : Player) : PlayerRel p p := Or.inl rfl

theorem forall₂_playerRel_refl (ps : List Player) : List.Forall₂ PlayerRel ps ps := by
  induction ps with
  | nil => exact List.Forall₂.nil
  | cons p rest ih => exact List.Forall₂.cons (playerRel_refl p) ih

theorem kill_kill (p : Player) :
    ({ ({ p with alive := false } : Player) with alive := false } : Player) =
      { p with alive := false } := rfl

theorem playerRel_kill {p q : Player} (h : PlayerRel p q) :
    PlayerRel p { q with alive := false } := by
  rcases h with h | h
  · exact Or.inr (by rw [h])
  · exact Or.inr (by rw [h, kill_kill])

theorem forall₂_map_right {R : Player → Player → Prop} {f : Player → Player}
    (hf : ∀ a b, R a b → R a (f b)) :
    ∀ {l₁ l₂ : List Player}, List.Forall₂ R l₁ l₂ → List.Forall₂ R l₁ (l₂.map f) := by
  intro l₁ l₂ h
  induction h with
  | nil => exact List.Forall₂.nil
  | cons hab _ ih => exact List.Forall₂.cons (hf _ _ hab) ih

theorem markDead_rel {ps st : List Player} (pid : String)
    (h : List.Forall₂ PlayerRel ps st) :
    List.Forall₂ PlayerRel ps (markDead st pid) := by
  refine forall₂_map_right (fun a b hab => ?_) h
  by_cases hb : b.id = pid
  · simpa [hb] using playerRel_kill hab
  · simpa [hb] using hab

theorem collide_fold_rel (F : List Player → Player → Bool) :
    ∀ (alist : List Player) {ps st : List Player}, List.Forall₂ PlayerRel ps st →
      List.Forall₂ PlayerRel ps
        (alist.foldl (fun st p => if F st p then markDead st p.id else st) st) := by
  intro alist
  induction alist with
  | nil => intro ps st h; simpa using h
  | cons p rest ih =>
    intro ps st h
    simp only [List.foldl_cons]
    by_cases hF : F st p = true
    · simpa [hF] using ih (markDead_rel p.id h)
    · simp only [Bool.not_eq_true] at hF
      simpa [hF] using ih h

theorem checkCollisions_rel (ps : List Player) :
    List.Forall₂ PlayerRel ps (checkCollisions ps) := by
  unfold checkCollisions
  exact collide_fold_rel _ _ (forall₂_playerRel_refl ps)

/-! ## Claims -/

/-- **C1** (counterexample).  The claim "one invocation of the collision
detector computes each player's elimination against a consistent snapshot
taken before any elimination of this tick is applied, and the set of
players it marks not-alive is identical regardless of iteration order" is
false: `pA`'s head lies on `pB`'s old trail and vice versa, yet with
iteration order `[pA, pB]` exactly `"a"` is eliminated (its elimination is
applied mid-pass, so `"b"` then skips `"a"`'s trail), while with order
`[pB, pA]` exactly `"b"` is eliminated. -/
theorem checkCollisions_order_counterexample :
    ((checkCollisions [pA, pB]).map fun p => (p.id, p.alive)) = [("a", false), ("b", true)]
      ∧ ((checkCollisions [pB, pA]).map fun p => (p.id, p.alive)) = [("b", false), ("a", true)] := by
  constructor <;>
  · norm_num [checkCollisions, boundsOf, bboxOf, bboxRaw, bboxStep, trailPoints, hitAny,
      lookupBounds, trailScanHit, scanEnd, pointNear, markDead, pA, pB, basePlayer, createPlayer,
      TRAIL_MAX, COLLISION_RADIUS, COLLISION_RADIUS_SQ, COLLISION_SKIP_OWN, CANVAS_W, CANVAS_H,
      LIVES, COLORS, lt_abs,
      List.filterMap_cons, List.filter_cons, List.foldl_cons, List.foldl_nil,
      List.map_cons, List.map_nil, List.any_cons, List.any_nil,
      List.range_succ, List.range_zero, List.take_succ_cons, List.take_nil, List.take_zero]
    simp only [String.reduceEq, reduceIte]
    norm_num [List.take_succ_cons, List.take_nil, List.take_zero, List.any_cons, List.any_nil,
      List.map_cons, List.map_nil, lt_abs]
    simp only [String.reduceEq, reduceIte]
    simp [List.map_cons]

/-- **C1** (amended).  One invocation of `checkCollisions` evaluates every
player against positions and trails that stay unmodified throughout the
pass — each player record in the output is either identical to its input
record or differs only in having `alive` cleared (`PlayerRel`).
Eliminations themselves, however, are applied as the iteration proceeds
(a player eliminated earlier in the pass stops being a hazard for players
evaluated later), so the set of players marked not-alive may depend on the
iteration order, as the counterexample shows. -/
theorem checkCollisions_snapshot_amended (players : List Player) :
    List.Forall₂ PlayerRel players (checkCollisions players) :=
  checkCollisions_rel players

/-- **C4** (confirmed).  An alive player whose trail holds fewer than
`COLLISION_SKIP_OWN` (20) points — in particular one that has moved in a
straight line for fewer than 20 ticks since its trail was reset — is never
eliminated by its own trail: the self-collision scan excludes the newest 20
own points, so its scan range is empty (`trailScanHit … true = false`), and
a room containing only that player leaves it alive. -/
theorem self_collision_immunity (p : Player) (halive : p.alive = true)
    (hlen : p.trailLen < COLLISION_SKIP_OWN) :
    trailScanHit p.x p.y p true = false ∧ checkCollisions [p] = [p] := by
  have h1 : trailScanHit p.x p.y p true = false := by
    simp [trailScanHit, scanEnd, Nat.sub_eq_zero_of_le (Nat.le_of_lt hlen)]
  refine ⟨h1, ?_⟩
  have h2 : ∀ bs, hitAny bs [p] p.x p.y p.id = false := by
    intro bs
    simp only [hitAny, List.any_cons, List.any_nil, halive, Bool.not_true]
    cases lookupBounds bs p.id with
    | none => simp
    | some b => simp [h1]
  unfold checkCollisions
  simp [halive, List.filter_cons, h2]

/-- **C4** witness: `pSelf` stands exactly on its own 5-point trail yet is
not self-eliminated. -/
theorem self_collision_immunity_witness :
    trailScanHit pSelf.x pSelf.y pSelf true = false ∧ checkCollisions [pSelf] = [pSelf] :=
  self_collision_immunity pSelf rfl (by decide)

/-- **C5** (counterexample).  The claim "for every `logicalIndex ≥ length`,
the `pointAt` lookup fails with an IndexOutOfRange error rather than
returning a point" is false: `trailGetIndex`/`getTrailSlice` perform no
bounds check against `trailLen`.  On the empty-trailed `pEmpty`
(`trailLen = 0`), looking up logical index `5` succeeds and returns the
zero-initialized point `(0, 0)` stored at physical slot `5`. -/
theorem pointAt_no_failure_counterexample :
    pEmpty.trailLen = 0 ∧ trailGetIndex pEmpty 5 = 5 ∧ pointAt pEmpty 5 = (0, 0) :=
  ⟨rfl, by decide, rfl⟩

/-- **C5** (amended).  The lookup is total: for *every* logical index
(including `logicalIndex ≥ length`) it returns, without any failure, the
point stored at physical slot `(start + logicalIndex) mod capacity` — a
slot that is always inside the 600-entry backing array, so no
IndexOutOfRange condition can arise; only for `logicalIndex < length` is
that slot a currently-stored trail point. -/
theorem pointAt_total_amended (p : Player) (i : Nat) :
    trailGetIndex p i < TRAIL_MAX ∧
      pointAt p i =
        (p.trailX ((p.trailStart + i) % TRAIL_MAX), p.trailY ((p.trailStart + i) % TRAIL_MAX)) :=
  ⟨Nat.mod_lt _ (by norm_num [TRAIL_MAX]), rfl⟩

theorem lookupRoom_update {rooms : Rooms} {code : String} {room : Room}
    (h : lookupRoom rooms code = some room) (r' : Room) :
    lookupRoom (updateRoom rooms code r') code = some r' := by
  induction rooms with
  | nil => simp [lookupRoom] at h
  | cons cr rest ih =>
    by_cases hc : cr.1 = code
    · simp [lookupRoom, updateRoom, hc]
    · simp only [lookupRoom, hc, if_false] at h
      simp only [updateRoom, List.map_cons, hc, if_false]
      simpa [lookupRoom, hc] using ih h

/-- **C6** (counterexample).  The claim "a non-host session issuing a
host-only action (start or restart) receives an error message" is false for
"restart": a non-host restart (`"j"` in `roomsOne`, whose host is `"h"`)
is silently dropped — no message of any kind is sent (in particular no
`error`), though the room table is indeed left unchanged. -/
theorem restart_no_error_counterexample :
    (handleRestart roomsOne (some "1234") "j").toSender = [] ∧
      (handleRestart roomsOne (some "1234") "j").broadcast = [] ∧
      (handleRestart roomsOne (some "1234") "j").rooms = roomsOne :=
  ⟨rfl, rfl, rfl⟩

/-- **C6** (amended).  Protocol violations answered with an error message
and an unchanged room table are: a join with an unknown room code, a join
to a room at its 8-player capacity, a start with fewer than 2 players, and
a *start* from a non-host session.  A *restart* from a non-host session is
instead silently ignored: the table is unchanged but no error (indeed no
message at all) is sent. -/
theorem protocol_violation_errors_amended :
    (∀ rooms id code name, lookupRoom rooms code = none →
        handleJoin rooms id code name = ⟨rooms, [.error "Room not found"], []⟩) ∧
    (∀ rooms id code name room, lookupRoom rooms code = some room →
        8 ≤ room.players.length →
        handleJoin rooms id code name = ⟨rooms, [.error "Room is full (max 8)"], []⟩) ∧
    (∀ rooms id code room, lookupRoom rooms code = some room →
        room.players.length < 2 →
        handleStart rooms (some code) id = ⟨rooms, [.error "Need at least 2 players!"], []⟩) ∧
    (∀ rooms id code room, lookupRoom rooms code = some room →
        ¬ room.players.length < 2 → id ≠ room.hostId →
        handleStart rooms (some code) id = ⟨rooms, [.error "Only the host can start"], []⟩) ∧
    (∀ rooms id code room, lookupRoom rooms code = some room → id ≠ room.hostId →
        handleRestart rooms (some code) id = ⟨rooms, [], []⟩) := by
  refine ⟨?_, ?_, ?_, ?_, ?_⟩
  · intro rooms id code name h
    simp [handleJoin, h]
  · intro rooms id code name room h hcap
    simp [handleJoin, h, hcap]
  · intro rooms id code room h hlt
    simp [handleStart, h, hlt]
  · intro rooms id code room h hge hhost
    simp [handleStart, h, hge, hhost]
  · intro rooms id code room h hhost
    simp [handleRestart, h, hhost]

/-- **C6** witness: the four error branches and the silent non-host restart
evaluated on concrete rooms (`roomsOne` two-player with host `"h"`,
`roomsFull` at capacity, `roomsSolo` single-player). -/
theorem protocol_violation_errors_witness :
    handleJoin roomsOne "z" "9999" none = ⟨roomsOne, [.error "Room not found"], []⟩ ∧
      handleJoin roomsFull "z" "8888" none = ⟨roomsFull, [.error "Room is full (max 8)"], []⟩ ∧
      handleStart roomsSolo (some "1111") "h" = ⟨roomsSolo, [.error "Need at least 2 players!"], []⟩ ∧
      handleStart roomsOne (some "1234") "j" = ⟨roomsOne, [.error "Only the host can start"], []⟩ ∧
      handleRestart roomsOne (some "1234") "j" = ⟨roomsOne, [], []⟩ :=
  ⟨protocol_violation_errors_amended.1 roomsOne "z" "9999" none rfl,
   protocol_violation_errors_amended.2.1 roomsFull "z" "8888" none roomFull rfl (by decide),
   protocol_violation_errors_amended.2.2.1 roomsSolo "h" "1111" roomSolo rfl (by decide),
   protocol_violation_errors_amended.2.2.2.1 roomsOne "j" "1234" roomTwo rfl (by decide)
     (by decide),
   protocol_violation_errors_amended.2.2.2.2 roomsOne "j" "1234" roomTwo rfl (by decide)⟩

/-- **C7** (counterexample).  The claim "readyUp commands are accepted only
from non-host players … consequently the ready value never exceeds the
total value" is false: the handler never compares the sender with
`hostId`.  On the match-end room `roomME` (host `"h"`, one non-host
`"j"`), the host's readyUp is accepted (broadcasting `readyCount 1 1` and
putting `"h"` in the ready set), and the subsequent readyUp of `"j"`
broadcasts `readyCount 2 1` — `ready = 2` exceeds `total = 1`. -/
theorem readyUp_host_counterexample :
    (handleReadyUp roomsME (some "4321") "h").broadcast = [.readyCount 1 1] ∧
      ((lookupRoom roomsME1 "4321").map fun r => decide ("h" ∈ r.readyPlayers)) = some true ∧
      (handleReadyUp roomsME1 (some "4321") "j").broadcast = [.readyCount 2 1] :=
  ⟨by decide, by decide, by decide⟩

/-- **C7** (amended).  While a room is in the match-end state
(`matchWinner` set), a readyUp from *any* session in the room — the host
included — is accepted: the sender's id is inserted into the ready set and
the broadcast `readyCount` reports the updated set's size out of the count
of non-host participants.  Consequently `ready ≤ total` holds whenever the
updated ready set consists of non-host player ids only (as when only
non-host players have readied up), but a host readyUp can push `ready`
above `total`. -/
theorem readyUp_accepts_any_member_amended (rooms : Rooms) (code : String) (room : Room)
    (id w : String) (h : lookupRoom rooms code = some room)
    (hw : room.matchWinner = some w) :
    (handleReadyUp rooms (some code) id =
      ⟨updateRoom rooms code { room with readyPlayers := insert id room.readyPlayers }, [],
       [.readyCount (insert id room.readyPlayers).card
          ((room.players.filter fun p => p.id ≠ room.hostId).length)]⟩) ∧
    ((∀ a ∈ insert id room.readyPlayers,
        a ∈ (room.players.filter fun p => p.id ≠ room.hostId).map (·.id)) →
      (insert id room.readyPlayers).card ≤
        (room.players.filter fun p => p.id ≠ room.hostId).length) := by
  constructor
  · simp [handleReadyUp, h, hw]
  · intro hsub
    set l := (room.players.filter fun p => p.id ≠ room.hostId).map (·.id) with hl
    have h1 : insert id room.readyPlayers ⊆ l.toFinset := by
      intro a ha
      exact List.mem_toFinset.2 (hsub a ha)
    calc (insert id room.readyPlayers).card ≤ l.toFinset.card := Finset.card_le_card h1
      _ ≤ l.length := List.toFinset_card_le l
      _ = (room.players.filter fun p => p.id ≠ room.hostId).length := List.length_map _ _

/-- **C7** witness: on `roomsME`, the non-host `"j"` readying up yields
`readyCount 1 1`, and indeed `1 ≤ 1`. -/
theorem readyUp_accepts_any_member_witness :
    (handleReadyUp roomsME (some "4321") "j" =
      ⟨updateRoom roomsME "4321" { roomME with readyPlayers := insert "j" roomME.readyPlayers },
       [],
       [.readyCount (insert "j" roomME.readyPlayers).card
          ((roomME.players.filter fun p => p.id ≠ roomME.hostId).length)]⟩) ∧
      (insert "j" roomME.readyPlayers).card ≤
        (roomME.players.filter fun p => p.id ≠ roomME.hostId).length :=
  ⟨(readyUp_accepts_any_member_amended roomsME "4321" roomME "j" "Player" rfl rfl).1,
   (readyUp_accepts_any_member_amended roomsME "4321" roomME "j" "Player" rfl rfl).2
     (by decide)⟩

theorem kill_eq_self {p : Player} (h : p.alive = false) :
    ({ p with alive := false } : Player) = p := by
  cases p
  simp_all

/-- **C10** (confirmed).  A successful join into a room whose match has
started creates the new player with `alive = false` and forces the next
broadcast to be a full sync (`needsFullSync = true`); a join into a
not-yet-started room creates the player with `alive = true` (and leaves
the sync flag alone).  A non-alive player takes no part in physics or
collision: the physics phase returns its record unchanged, and so does
`checkCollisions`. -/
theorem join_mid_match (rooms : Rooms) (id code : String) (name : Option String) (room : Room)
    (h : lookupRoom rooms code = some room) (hcap : room.players.length < 8) :
    (room.gameStarted = true →
      lookupRoom (handleJoin rooms id code name).rooms code =
        some { room with
                players := room.players ++
                  [{ createPlayer id room.players.length name with alive := false }]
                needsFullSync := true }) ∧
    (room.gameStarted = false →
      lookupRoom (handleJoin rooms id code name).rooms code =
        some { room with players := room.players ++ [createPlayer id room.players.length name] }) ∧
    (createPlayer id room.players.length name).alive = true ∧
    (∀ (cosF sinF : ℚ → ℚ) (spd : ℚ) (ps : List Player) (i : Nat)
        (hi : i < ps.length) (hj : i < (physicsPhase cosF sinF spd ps).length),
        (ps.get ⟨i, hi⟩).alive = false →
        (physicsPhase cosF sinF spd ps).get ⟨i, hj⟩ = ps.get ⟨i, hi⟩) ∧
    (∀ (ps : List Player) (i : Nat) (hi : i < ps.length) (hj : i < (checkCollisions ps).length),
        (ps.get ⟨i, hi⟩).alive = false →
        (checkCollisions ps).get ⟨i, hj⟩ = ps.get ⟨i, hi⟩) := by
  have hnotcap : ¬ 8 ≤ room.players.length := by omega
  refine ⟨?_, ?_, rfl, ?_, ?_⟩
  · intro hgs
    simp only [handleJoin, h, hnotcap, if_false, hgs, if_true]
    exact lookupRoom_update h _
  · intro hgs
    simp only [handleJoin, h, hnotcap, if_false, hgs, Bool.false_eq_true, if_false]
    have := lookupRoom_update h
      { room with players := room.players ++ [createPlayer id room.players.length name]
                  needsFullSync := room.needsFullSync }
    simpa [hgs] using this
  · intro cosF sinF spd ps i hi hj hdead
    simp only [List.get_eq_getElem] at hdead ⊢
    simp only [physicsPhase, List.getElem_map]
    simp [hdead]
  · intro ps i hi hj hdead
    rcases (checkCollisions_rel ps).get hi hj with hq | hq
    · exact hq
    · rw [hq]
      exact kill_eq_self hdead

/-- **C10** witness: joining the started room `roomsStarted` (code
`"7777"`, 2 of 8 slots used) yields a room whose appended player is dead
and whose `needsFullSync` flag is set. -/
theorem join_mid_match_witness :
    lookupRoom (handleJoin roomsStarted "z" "7777" none).rooms "7777" =
      some { roomStarted with
              players := roomStarted.players ++
                [{ createPlayer "z" roomStarted.players.length none with alive := false }]
              needsFullSync := true } :=
  (join_mid_match roomsStarted "z" "7777" none roomStarted rfl (by decide)).1 rfl

/-- **C8** (confirmed).  With a recorded (non-zero) round start time `t`
and non-negative elapsed time, the per-tick room speed is exactly
`min(BASE_SPEED + ⌊elapsedSeconds / SPEED_INTERVAL⌋ * SPEED_INCREMENT,
MAX_SPEED)` where `elapsedSeconds = (now - t) / 1000`; with no recorded
round start it is `BASE_SPEED`.  An active-round tick computes this speed
once per room, stores it in `currentSpeed`, and the physics phase advances
every alive player with that same value. -/
theorem room_speed_formula :
    (∀ (now t : ℚ) (room : Room), room.roundStartTime = some t → t ≠ 0 → 0 ≤ now - t →
        getRoomSpeed now room =
          min (BASE_SPEED + ((⌊((now - t) / 1000) / SPEED_INTERVAL⌋ : ℤ) : ℚ) * SPEED_INCREMENT)
            MAX_SPEED) ∧
    (∀ (now : ℚ) (room : Room), room.roundStartTime = none →
        getRoomSpeed now room = BASE_SPEED) ∧
    (∀ (cosF sinF : ℚ → ℚ) (now : ℚ) (sb : Bool) (room : Room), room.roundActive = true →
        tickRoom cosF sinF now sb room =
          (if sb then
            broadcastPhase (roundPhase
              { room with currentSpeed := getRoomSpeed now room
                          players := checkCollisions
                            (physicsPhase cosF sinF (getRoomSpeed now room) room.players) })
          else
            roundPhase
              { room with currentSpeed := getRoomSpeed now room
                          players := checkCollisions
                            (physicsPhase cosF sinF (getRoomSpeed now room) room.players) })) ∧
    (∀ (cosF sinF : ℚ → ℚ) (spd : ℚ) (ps : List Player) (i : Nat) (hi : i < ps.length)
        (hj : i < (physicsPhase cosF sinF spd ps).length), (ps.get ⟨i, hi⟩).alive = true →
        (physicsPhase cosF sinF spd ps).get ⟨i, hj⟩ = movePlayer cosF sinF (ps.get ⟨i, hi⟩) spd) := by
  refine ⟨?_, ?_, ?_, ?_⟩
  · intro now t room h ht _
    simp [getRoomSpeed, h, ht]
  · intro now room h
    simp [getRoomSpeed, h]
  · intro cosF sinF now sb room hr
    simp [tickRoom, hr]
  · intro cosF sinF spd ps i hi hj halive
    simp only [List.get_eq_getElem] at halive ⊢
    simp only [physicsPhase, List.getElem_map]
    simp [halive]

/-- **C8** witness: `roomRS` started its round at `t = 1000`; at
`now = 121000` the speed is given by the claimed formula, and with no
recorded start time the speed is `BASE_SPEED`. -/
theorem room_speed_formula_witness :
    getRoomSpeed 121000 roomRS =
      min (BASE_SPEED + ((⌊((121000 - 1000 : ℚ) / 1000) / SPEED_INTERVAL⌋ : ℤ) : ℚ)
        * SPEED_INCREMENT) MAX_SPEED ∧
      getRoomSpeed 121000 roomBase = BASE_SPEED :=
  ⟨room_speed_formula.1 121000 1000 roomRS rfl (by norm_num) (by norm_num),
   room_speed_formula.2.1 121000 roomBase rfl⟩

theorem physicsPhase_length (cosF sinF : ℚ → ℚ) (spd : ℚ) (ps : List Player) :
    (physicsPhase cosF sinF spd ps).length = ps.length := by
  simp [physicsPhase]

theorem checkCollisions_length (ps : List Player) :
    (checkCollisions ps).length = ps.length :=
  ((checkCollisions_rel ps).length_eq).symm

theorem broadcastPhase_roundActive (r : Room) :
    (broadcastPhase r).roundActive = r.roundActive := rfl

/-- **C3** (counterexample).  The claim "in a room whose round is active
with at least 2 total players at round start, the tick in which the count
of currently-alive players drops to ≤ 1 (after physics and collision) is
exactly the tick in which the room leaves the Active state" is false: the
code gates the transition on the room's *current* player count.  A round
starts with 2 players (2 alive); player `"j"` then disconnects.  On the
next tick the post-physics/collision alive count is `1 ≤ 1`, yet the room
stays Active (`roundActive = true`), because `totalPlayers = 1 < 2`. -/
theorem round_end_total_check_counterexample :
    roomC3started.roundActive = true ∧
      roomC3started.players.length = 2 ∧
      aliveCount roomC3started.players = 2 ∧
      roomC3dropped.players.length = 1 ∧
      aliveCount roomC3ticked.players = 1 ∧
      roomC3ticked.roundActive = true := by
  refine ⟨rfl, by decide, by decide, by decide, ?_, ?_⟩ <;>
  · norm_num [roomC3ticked, roomC3dropped, roomC3started, removePlayer, startRound, tickRoom,
      roundPhase, broadcastPhase, physicsPhase, movePlayer, trailPush, getRoomSpeed, aliveCount,
      checkCollisions, boundsOf, bboxOf, bboxRaw, bboxStep, trailPoints, hitAny, lookupBounds,
      trailScanHit, scanEnd, pointNear, markDead, roomTwo, roomBase, pH, pJ, createPlayer,
      spawnConfigs, TRAIL_MAX, COLLISION_RADIUS, COLLISION_RADIUS_SQ, COLLISION_SKIP_OWN,
      CANVAS_W, CANVAS_H, LIVES, COLORS, TURN_SPEED, BASE_SPEED, SPEED_INCREMENT, SPEED_INTERVAL,
      MAX_SPEED, lt_abs,
      List.filterMap_cons, List.filter_cons, List.foldl_cons, List.foldl_nil,
      List.map_cons, List.map_nil, List.any_cons, List.any_nil, List.getD_cons_zero,
      List.getD_cons_succ,
      List.range_succ, List.range_zero, List.take_succ_cons, List.take_nil, List.take_zero]
    simp only [String.reduceEq, reduceIte]
    norm_num [List.take_succ_cons, List.take_nil, List.take_zero, List.any_cons, List.any_nil,
      List.map_cons, List.map_nil, List.filter_cons, lt_abs]

/-- **C3** (amended).  For a tick of a room whose round is active and which
*currently* holds at least 2 players, the room leaves the Active state
(`roundActive` becomes `false`) in exactly the tick in which the
post-physics/collision alive count is ≤ 1 — never an earlier tick.  (The
code checks the current player count, not the round-start count, which is
what the counterexample exploits.) -/
theorem round_end_threshold_amended (cosF sinF : ℚ → ℚ) (now : ℚ) (sb : Bool) (room : Room)
    (hactive : room.roundActive = true) (htotal : 2 ≤ room.players.length) :
    ((tickRoom cosF sinF now sb room).roundActive = false ↔
      aliveCount (checkCollisions
        (physicsPhase cosF sinF (getRoomSpeed now room) room.players)) ≤ 1) := by
  have hlen : (checkCollisions
      (physicsPhase cosF sinF (getRoomSpeed now room) room.players)).length =
      room.players.length := by
    rw [checkCollisions_length, physicsPhase_length]
  simp only [tickRoom, hactive, if_true]
  have hgoal : ∀ r : Room, r.roundActive = true → 2 ≤ r.players.length →
      ((roundPhase r).roundActive = false ↔ aliveCount r.players ≤ 1) := by
    intro r hr htot
    unfold roundPhase
    by_cases hc : aliveCount r.players ≤ 1
    · simp only [hr, htot, hc, and_true, true_and, if_true]
      by_cases hs : ((r.players.map fun p =>
          if p.alive then p else { p with lives := p.lives - 1 }).filter
            fun p => 0 < p.lives).length ≤ 1 <;> simp [hs, hc]
    · simp [hr, htot, hc]
  cases sb <;> exact hgoal _ rfl (hlen.symm ▸ htotal)

/-- **C3** witness: a tick of the freshly started two-player room
`roomActive` (under trig functions that keep both players at their spawns)
satisfies the equivalence. -/
theorem round_end_threshold_witness :
    (tickRoom (fun _ => 0) (fun _ => 0) 121000 false roomActive).roundActive = false ↔
      aliveCount (checkCollisions (physicsPhase (fun _ => 0) (fun _ => 0)
        (getRoomSpeed 121000 roomActive) roomActive.players)) ≤ 1 :=
  round_end_threshold_amended (fun _ => 0) (fun _ => 0) 121000 false roomActive rfl (by decide)

theorem extendsBB_refl (b : BBox) : extendsBB b b :=
  ⟨le_refl _, le_refl _, le_refl _, le_refl _⟩

theorem extendsBB_trans {b b₁ b₂ : BBox} (h1 : extendsBB b b₁) (h2 : extendsBB b₁ b₂) :
    extendsBB b b₂ :=
  ⟨h1.1.trans h2.1, h2.2.1.trans h1.2.1, h1.2.2.1.trans h2.2.2.1, h2.2.2.2.trans h1.2.2.2⟩

theorem inBB_of_extends {b b₁ : BBox} {pt : ℚ × ℚ} (hx : extendsBB b b₁) (hp : inBB b₁ pt) :
    inBB b pt :=
  ⟨hx.1.trans hp.1, hp.2.1.trans hx.2.1, hx.2.2.1.trans hp.2.2.1, hp.2.2.2.trans hx.2.2.2⟩

theorem bboxStep_some (pts : List (ℚ × ℚ)) : ∀ b : BBox, ∃ b', pts.foldl bboxStep (some b) = some b' := by
  induction pts with
  | nil => intro b; exact ⟨b, rfl⟩
  | cons pt rest ih => intro b; exact ih _

theorem bboxRaw_cons_some (pt : ℚ × ℚ) (rest : List (ℚ × ℚ)) :
    ∃ b, bboxRaw (pt :: rest) = some b := by
  unfold bboxRaw
  simp only [List.foldl_cons]
  exact bboxStep_some rest _

theorem trailPoints_nil_of_bbox_none {p : Player} (h : bboxOf p = none) :
    trailPoints p = [] := by
  unfold bboxOf at h
  rw [Option.map_eq_none'] at h
  cases hpts : trailPoints p with
  | nil => rfl
  | cons pt rest =>
    obtain ⟨b, hb⟩ := bboxRaw_cons_some pt rest
    rw [hpts, hb] at h
    cases h

theorem bboxRaw_fold_spec :
    ∀ (pts : List (ℚ × ℚ)) (acc : Option BBox) (b : BBox),
      pts.foldl bboxStep acc = some b →
      (∀ pt ∈ pts, inBB b pt) ∧ (∀ b₀, acc = some b₀ → extendsBB b b₀) := by
  intro pts
  induction pts with
  | nil =>
    intro acc b h
    simp only [List.foldl_nil] at h
    refine ⟨by simp, fun b₀ h₀ => ?_⟩
    obtain rfl : b₀ = b := Option.some.inj (h₀.symm.trans h)
    exact extendsBB_refl _
  | cons pt rest ih =>
    intro acc b h
    simp only [List.foldl_cons] at h
    obtain ⟨hmem, hext⟩ := ih (bboxStep acc pt) b h
    have hstep : ∃ b₁, bboxStep acc pt = some b₁ ∧ inBB b₁ pt ∧
        ∀ b₀, acc = some b₀ → extendsBB b₁ b₀ := by
      cases acc with
      | none =>
        exact ⟨⟨pt.1, pt.1, pt.2, pt.2⟩, rfl,
          ⟨le_refl _, le_refl _, le_refl _, le_refl _⟩, fun b₀ h₀ => by cases h₀⟩
      | some b₀ =>
        refine ⟨_, rfl, ⟨min_le_right _ _, le_max_right _ _, min_le_right _ _, le_max_right _ _⟩,
          fun b₀' h₀' => ?_⟩
        obtain rfl : b₀ = b₀' := Option.some.inj h₀'
        exact ⟨min_le_left _ _, le_max_left _ _, min_le_left _ _, le_max_left _ _⟩
    obtain ⟨b₁, hb₁, hin₁, hext₁⟩ := hstep
    have hbext : extendsBB b b₁ := hext b₁ hb₁
    refine ⟨fun q hq => ?_, fun b₀ h₀ => extendsBB_trans hbext (hext₁ b₀ h₀)⟩
    rcases List.mem_cons.mp hq with rfl | hq'
    · exact inBB_of_extends hbext hin₁
    · exact hmem q hq'

theorem pointNear_bounds {px py tx ty : ℚ} (h : pointNear px py tx ty = true) :
    |px - tx| ≤ COLLISION_RADIUS ∧ |py - ty| ≤ COLLISION_RADIUS := by
  simp only [pointNear] at h
  by_cases hc : |px - tx| > COLLISION_RADIUS ∨ |py - ty| > COLLISION_RADIUS
  · simp [hc] at h
  · push_neg at hc
    exact ⟨hc.1, hc.2⟩

theorem trailScanHit_inside {px py : ℚ} {other : Player} {isSelf : Bool} {b : BBox}
    (hb : bboxOf other = some b) (hhit : trailScanHit px py other isSelf = true) :
    ¬(px < b.minX ∨ px > b.maxX ∨ py < b.minY ∨ py > b.maxY) := by
  unfold trailScanHit at hhit
  rw [List.any_eq_true] at hhit
  obtain ⟨pt, hmem, hnear⟩ := hhit
  have hmem' : pt ∈ trailPoints other := List.mem_of_mem_take hmem
  unfold bboxOf at hb
  rw [Option.map_eq_some'] at hb
  obtain ⟨braw, hraw, hbeq⟩ := hb
  subst hbeq
  have hcont := (bboxRaw_fold_spec _ _ _ hraw).1 pt hmem'
  obtain ⟨h1, h2⟩ := pointNear_bounds hnear
  rw [abs_le] at h1 h2
  obtain ⟨hc1, hc2, hc3, hc4⟩ := hcont
  dsimp only
  rintro (h | h | h | h) <;> linarith

theorem trailScanHit_of_bbox_none {px py : ℚ} {other : Player} {isSelf : Bool}
    (h : bboxOf other = none) : trailScanHit px py other isSelf = false := by
  have := trailPoints_nil_of_bbox_none h
  simp [trailScanHit, this]

theorem lookupBounds_boundsOf :
    ∀ (ps : List Player), (ps.map (·.id)).Nodup → ∀ {p : Player}, p ∈ ps → p.alive = true →
      lookupBounds (boundsOf ps) p.id = bboxOf p := by
  intro ps
  induction ps with
  | nil =>
    intro _ p hp
    simp at hp
  | cons q rest ih =>
    intro hnd p hp halive
    rw [List.map_cons, List.nodup_cons] at hnd
    rcases List.mem_cons.mp hp with rfl | hp'
    · simp only [boundsOf, List.filterMap_cons, halive, if_true]
      simp [lookupBounds]
    · have hne : q.id ≠ p.id := fun he => hnd.1 (he ▸ List.mem_map_of_mem (·.id) hp')
      cases hq : q.alive
      · simp only [boundsOf, List.filterMap_cons, hq]
        simpa [boundsOf] using ih hnd.2 hp' halive
      · simp only [boundsOf, List.filterMap_cons, hq, if_true]
        simp only [lookupBounds, hne, if_false]
        simpa [boundsOf] using ih hnd.2 hp' halive

theorem rel_mem_right :
    ∀ {ps st : List Player}, List.Forall₂ PlayerRel ps st → ∀ {o : Player}, o ∈ st →
      ∃ a ∈ ps, PlayerRel a o := by
  intro ps st h
  induction h with
  | nil => intro o ho; simp at ho
  | cons hab _ ih =>
    intro o ho
    rcases List.mem_cons.mp ho with rfl | ho'
    · exact ⟨_, List.mem_cons_self _ _, hab⟩
    · obtain ⟨a, ha, hr⟩ := ih ho'
      exact ⟨a, List.mem_cons_of_mem _ ha, hr⟩

theorem list_any_congr {f g : Player → Bool} :
    ∀ {st : List Player}, (∀ o ∈ st, f o = g o) → st.any f = st.any g := by
  intro st
  induction st with
  | nil => intro _; rfl
  | cons o rest ih =>
    intro h
    simp only [List.any_cons]
    rw [h o (List.mem_cons_self _ _), ih fun o' ho' => h o' (List.mem_cons_of_mem _ ho')]

theorem hitAny_eq_noBBox {ps st : List Player} (hnd : (ps.map (·.id)).Nodup)
    (hrel : List.Forall₂ PlayerRel ps st) (px py : ℚ) (pid : String) :
    hitAny (boundsOf ps) st px py pid = hitAnyNoBBox st px py pid := by
  unfold hitAny hitAnyNoBBox
  apply list_any_congr
  intro other hother
  cases halive : other.alive
  · simp [halive]
  · obtain ⟨a, ha, hr⟩ := rel_mem_right hrel hother
    have hoa : other = a := by
      rcases hr with h | h
      · exact h
      · rw [h] at halive
        exact absurd halive (by simp)
    have halive' : a.alive = true := hoa ▸ halive
    have hlb : lookupBounds (boundsOf ps) other.id = bboxOf other := by
      rw [hoa]
      exact lookupBounds_boundsOf ps hnd ha halive'
    simp only [halive, Bool.not_true, if_false]
    rw [hlb]
    cases hbb : bboxOf other with
    | none => simp [trailScanHit_of_bbox_none hbb]
    | some b =>
      by_cases houts : px < b.minX ∨ px > b.maxX ∨ py < b.minY ∨ py > b.maxY
      · have hsc : trailScanHit px py other (decide (other.id = pid)) = false := by
          cases hscan : trailScanHit px py other (decide (other.id = pid))
          · rfl
          · exact absurd houts (trailScanHit_inside hbb hscan)
        simp [houts, hsc]
      · simp [houts]

theorem collide_fold_eq {ps : List Player} (hnd : (ps.map (·.id)).Nodup) :
    ∀ (alist : List Player) {st : List Player}, List.Forall₂ PlayerRel ps st →
      alist.foldl
        (fun st p => if hitAny (boundsOf ps) st p.x p.y p.id then markDead st p.id else st) st =
      alist.foldl
        (fun st p => if hitAnyNoBBox st p.x p.y p.id then markDead st p.id else st) st := by
  intro alist
  induction alist with
  | nil => intro st _; rfl
  | cons p rest ih =>
    intro st hrel
    simp only [List.foldl_cons]
    rw [hitAny_eq_noBBox hnd hrel]
    cases hhit : hitAnyNoBBox st p.x p.y p.id
    · simp only [hhit, Bool.false_eq_true, if_false]
      exact ih hrel
    · simp only [hhit, if_true]
      exact ih (markDead_rel p.id hrel)

/-- **C9** (confirmed).  On any player set with distinct ids (JS object
keys), the collision detector with the axis-aligned bounding-box rejection
marks exactly the same players eliminated as the variant that scans every
trail point of every alive player without the pre-check: the padded box
contains every scanned trail point, so a head outside the box can never
produce a fine-scan hit. -/
theorem bbox_precheck_equivalence (players : List Player)
    (hnd : (players.map (·.id)).Nodup) :
    checkCollisions players = checkCollisionsNoBBox players := by
  unfold checkCollisions checkCollisionsNoBBox
  exact collide_fold_eq hnd _ (forall₂_playerRel_refl players)

/-- **C9** witness: the two-player configuration `[pA, pB]` (distinct ids)
produces identical results with and without the bounding-box pre-check. -/
theorem bbox_precheck_equivalence_witness :
    checkCollisions [pA, pB] = checkCollisionsNoBBox [pA, pB] :=
  bbox_precheck_equivalence [pA, pB] (by decide)

theorem pushSeq_append (p : Player) (xs : List (ℚ × ℚ)) (xy : ℚ × ℚ) :
    pushSeq p (xs ++ [xy]) = trailPush (pushSeq p xs) xy.1 xy.2 := by
  simp [pushSeq, List.foldl_append]

theorem pushSeq_reset_spec (p : Player) (pts : List (ℚ × ℚ)) :
    goodTrail pts (pushSeq (resetTrail p) pts) := by
  induction pts using List.reverseRecOn with
  | nil =>
    exact ⟨by simp [pushSeq, resetTrail], by simp [pushSeq, resetTrail],
      rfl, fun i hi => absurd hi (by simp [pushSeq, resetTrail])⟩
  | append_singleton xs xy ih =>
    obtain ⟨h1, h2, h3, h4⟩ := ih
    rw [pushSeq_append]
    set q := pushSeq (resetTrail p) xs with hqdef
    by_cases hlt : q.trailLen < TRAIL_MAX
    · -- room left: plain append at slot `xs.length`
      have hn : q.trailLen = xs.length := by
        simp only [TRAIL_MAX] at h1 hlt ⊢
        omega
      have hxs : xs.length < TRAIL_MAX := hn ▸ hlt
      have hs0 : q.trailStart = 0 := by
        rw [h2, hn]
        simp
      have hidx : (q.trailStart + q.trailLen) % TRAIL_MAX = xs.length := by
        rw [hs0, hn]
        simp only [TRAIL_MAX] at hxs ⊢
        omega
      simp only [trailPush, if_pos hlt]
      refine ⟨?_, ?_, h3, ?_⟩
      · simp only [List.length_append, List.length_cons, List.length_nil]
        rw [hn]
        simp only [TRAIL_MAX] at hxs ⊢
        omega
      · simp only [List.length_append, List.length_cons, List.length_nil]
        rw [hs0, hn]
        simp
      · intro i hi
        simp only at hi
        have hi' : i < xs.length + 1 := by rw [← hn]; omega
      -- physical slot of logical `i` is `i` itself (start is 0)
        have hslot : (q.trailStart + i) % TRAIL_MAX = i := by
          rw [hs0]
          simp only [TRAIL_MAX] at hxs ⊢
          omega
        simp only [pointAt, trailGetIndex, hslot, hidx]
        simp only [List.length_append, List.length_cons, List.length_nil]
        have hind : xs.length + 1 - (q.trailLen + 1) + i = i := by rw [hn]; omega
        rw [hind]
        by_cases hie : i = xs.length
        · subst hie
          simp only [if_pos rfl]
          rw [List.getD_append_right _ _ _ _ (le_refl _)]
          simp
        · have hilt : i < xs.length := by omega
          simp only [hie, if_false]
          rw [List.getD_append _ _ _ _ hilt]
          have := h4 i (by omega)
          simp only [pointAt, trailGetIndex, hslot] at this
          rw [this, hn]
          congr 1
          omega
    · -- buffer full: overwrite the slot at `start`, advance `start`
      have hq600 : q.trailLen = TRAIL_MAX := by
        simp only [TRAIL_MAX] at h1 hlt ⊢
        omega
      have hxs : TRAIL_MAX ≤ xs.length := by
        simp only [TRAIL_MAX] at h1 hq600 ⊢
        omega
      have hsdef : q.trailStart = (xs.length - TRAIL_MAX) % TRAIL_MAX := by
        rw [h2, hq600]
      have hslt : q.trailStart < TRAIL_MAX := by
        rw [hsdef]
        simp only [TRAIL_MAX]
        omega
      simp only [trailPush, if_neg hlt]
      refine ⟨?_, ?_, ?_, ?_⟩
      · simp only [List.length_append, List.length_cons, List.length_nil]
        rw [hq600]
        simp only [TRAIL_MAX] at hxs ⊢
        omega
      · simp only [List.length_append, List.length_cons, List.length_nil]
        rw [hq600, hsdef]
        simp only [TRAIL_MAX] at hxs ⊢
        omega
      · rw [h3]
        simp
      · intro i hi
        simp only at hi
        have hi600 : i < TRAIL_MAX := by rw [← hq600]; omega
        simp only [pointAt, trailGetIndex]
        simp only [List.length_append, List.length_cons, List.length_nil]
        by_cases hi599 : i = TRAIL_MAX - 1
        · -- the newest point lands on the overwritten slot
          subst hi599
          have hslot : ((q.trailStart + 1) % TRAIL_MAX + (TRAIL_MAX - 1)) % TRAIL_MAX =
              q.trailStart := by
            simp only [TRAIL_MAX] at hslt ⊢
            omega
          rw [hslot]
          simp only [if_pos rfl]
          have hind : xs.length + 1 - q.trailLen + (TRAIL_MAX - 1) = xs.length := by
            rw [hq600]
            simp only [TRAIL_MAX] at hxs ⊢
            omega
          rw [hind, List.getD_append_right _ _ _ _ (le_refl _)]
          simp
        · -- older points shift down by one logical index
          have hslot : ((q.trailStart + 1) % TRAIL_MAX + i) % TRAIL_MAX =
              (q.trailStart + (i + 1)) % TRAIL_MAX := by
            simp only [TRAIL_MAX] at hslt hi600 ⊢
            omega
          have hne : (q.trailStart + (i + 1)) % TRAIL_MAX ≠ q.trailStart := by
            simp only [TRAIL_MAX] at hslt hi600 hi599 ⊢
            omega
          rw [hslot]
          simp only [if_neg hne]
          have := h4 (i + 1) (by rw [hq600]; simp only [TRAIL_MAX] at hi600 hi599 ⊢; omega)
          simp only [pointAt, trailGetIndex] at this
          rw [this]
          have hiltxs : xs.length + 1 - q.trailLen + i < xs.length := by
            rw [hq600]
            simp only [TRAIL_MAX] at hxs hi600 hi599 ⊢
            omega
          rw [List.getD_append _ _ _ _ hiltxs]
          congr 1
          rw [hq600]
          simp only [TRAIL_MAX] at hxs hi600 hi599 ⊢
          omega

/-- **C2** (confirmed).  Push semantics and circular invariant:
while `trailLen < TRAIL_MAX` a push appends at slot
`(start + length) mod capacity` and increments `trailLen`, leaving `start`
and `sentCount` alone; once `trailLen = TRAIL_MAX` a push overwrites the
slot at `start`, advances `start`, keeps `trailLen`, and decrements
`sentCount` by one unless it is already `≤ 0` — so a non-negative
`sentCount` never goes below zero.  For every push sequence from the
freshly-reset state (hence after every call, every prefix being such a
sequence): `sentCount ≤ trailLen ≤ TRAIL_MAX` (600), `trailLen` is the
number of pushes capped at capacity, and the retrievable logical points are
exactly the most recent `trailLen` pushed points in insertion order. -/
theorem trail_circular_invariant :
    (∀ (p : Player) (x y : ℚ), p.trailLen < TRAIL_MAX →
        (trailPush p x y).trailLen = p.trailLen + 1 ∧
        (trailPush p x y).trailStart = p.trailStart ∧
        (trailPush p x y).trailSentCount = p.trailSentCount ∧
        (trailPush p x y).trailX ((p.trailStart + p.trailLen) % TRAIL_MAX) = x ∧
        (trailPush p x y).trailY ((p.trailStart + p.trailLen) % TRAIL_MAX) = y) ∧
    (∀ (p : Player) (x y : ℚ), ¬ p.trailLen < TRAIL_MAX →
        (trailPush p x y).trailLen = p.trailLen ∧
        (trailPush p x y).trailStart = (p.trailStart + 1) % TRAIL_MAX ∧
        (trailPush p x y).trailX p.trailStart = x ∧
        (trailPush p x y).trailY p.trailStart = y ∧
        (trailPush p x y).trailSentCount =
          (if 0 < p.trailSentCount then p.trailSentCount - 1 else p.trailSentCount)) ∧
    (∀ (p : Player) (x y : ℚ), 0 ≤ p.trailSentCount → 0 ≤ (trailPush p x y).trailSentCount) ∧
    (∀ (p : Player) (pts : List (ℚ × ℚ)),
        (pushSeq (resetTrail p) pts).trailSentCount ≤
          ((pushSeq (resetTrail p) pts).trailLen : ℤ) ∧
        (pushSeq (resetTrail p) pts).trailLen ≤ TRAIL_MAX ∧
        (pushSeq (resetTrail p) pts).trailLen = min pts.length TRAIL_MAX ∧
        ∀ i, i < (pushSeq (resetTrail p) pts).trailLen →
          pointAt (pushSeq (resetTrail p) pts) i =
            pts.getD (pts.length - (pushSeq (resetTrail p) pts).trailLen + i) (0, 0)) := by
  refine ⟨?_, ?_, ?_, ?_⟩
  · intro p x y h
    simp [trailPush, h]
  · intro p x y h
    simp [trailPush, h]
  · intro p x y h
    unfold trailPush
    split
    · exact h
    · dsimp only
      split <;> omega
  · intro p pts
    obtain ⟨g1, g2, g3, g4⟩ := pushSeq_reset_spec p pts
    refine ⟨?_, ?_, g1, g4⟩
    · rw [g3]
      exact Int.natCast_nonneg _
    · rw [g1]
      exact min_le_right _ _

/-- **C2** witness: a push on the empty-trailed `pEmpty` appends; a push on
the full `pFull` advances `start` and keeps `sentCount` non-negative; two
pushes from reset store both points. -/
theorem trail_circular_invariant_witness :
    (trailPush pEmpty 1 2).trailLen = pEmpty.trailLen + 1 ∧
      (trailPush pFull 1 2).trailStart = (pFull.trailStart + 1) % TRAIL_MAX ∧
      0 ≤ (trailPush pFull 1 2).trailSentCount ∧
      (pushSeq (resetTrail pEmpty) [((1 : ℚ), (2 : ℚ)), (3, 4)]).trailLen = 2 :=
  ⟨(trail_circular_invariant.1 pEmpty 1 2 (by decide)).1,
   (trail_circular_invariant.2.1 pFull 1 2 (by decide)).2.1,
   trail_circular_invariant.2.2.1 pFull 1 2 (by decide),
   ((trail_circular_invariant.2.2.2 pEmpty [((1 : ℚ), (2 : ℚ)), (3, 4)]).2.2.1).trans
     (by decide)⟩

end Neon
